import Mathlib

/-!
Shallow embedding of the lenses-go streaming client (`ws.go`) and of the
quota CLI delete commands (`cmd/lenses-cli/quota_command.go`), together with
theorems checking the natural-language specification against the code.
-/

namespace LensesGo

/-- Embedding of Go `strings.Replace(s, old, new, 1)` on character lists:
replace the first occurrence of `pat` by `rep`. -/
def replaceFirst (pat rep : List Char) : List Char → List Char
  | [] => if pat.isPrefixOf ([] : List Char) then rep else []
  | c :: rest =>
    if pat.isPrefixOf (c :: rest) then rep ++ (c :: rest).drop pat.length
    else c :: replaceFirst pat rep rest

/-- Go `strings.Replace(s, old, new, 1)` on strings. -/
def stringsReplaceOne (s old new : String) : String :=
  ⟨replaceFirst old.data new.data s.data⟩

/-- Byte classes kept verbatim by Go `url.QueryEscape`: ASCII alphanumerics
and the unreserved marks `-`, `_`, `.`, `~`. Every other byte is escaped
(space specially). -/
def isUnreservedQueryByte (b : Nat) : Bool :=
  (97 ≤ b && b ≤ 122) || (65 ≤ b && b ≤ 90) || (48 ≤ b && b ≤ 57) ||
    b == 45 || b == 95 || b == 46 || b == 126

/-- Upper-case hexadecimal digit for `n < 16`, as used by Go percent-encoding. -/
def upperHexDigit (n : Nat) : Char :=
  if n < 10 then Char.ofNat (48 + n) else Char.ofNat (55 + n)

/-- Percent-encoding of one byte, `%XX` with upper-case hex. -/
def percentEncodeByte (b : Nat) : String :=
  String.mk ['%', upperHexDigit (b / 16), upperHexDigit (b % 16)]

/-- Embedding of Go `url.QueryEscape` restricted to ASCII strings
(each character is one byte): a space becomes `+`, unreserved bytes are kept,
everything else is percent-encoded. -/
def queryEscape (s : String) : String :=
  String.join (s.data.map (fun c =>
    let b := c.toNat
    if b == 32 then "+"
    else if isUnreservedQueryByte b then String.mk [c]
    else percentEncodeByte b))

/-- The fields of `LiveConfiguration` that determine the endpoint. -/
structure LiveConfiguration where
  Host : String
  Token : String
  SQL : String
  Live : Bool
deriving DecidableEq, Repr

/-- Endpoint construction of `OpenLiveConnection` (ws.go lines 156-165):
rewrite `https://` to `wss://` (first occurrence), then a second
`https://`-to-`ws://` rewrite (a no-op when the first fired), escape the SQL
text and build the execute URL, appending `&live=true` in live mode. -/
def buildEndpoint (config : LiveConfiguration) : String :=
  let host1 := stringsReplaceOne config.Host "https://" "wss://"
  let host2 := stringsReplaceOne host1 "https://" "ws://"
  let query := queryEscape config.SQL
  if config.Live then
    host2 ++ "/api/ws/v1/sql/execute?sql=" ++ query ++ "&token=" ++ config.Token ++ "&live=true"
  else
    host2 ++ "/api/ws/v1/sql/execute?sql=" ++ query ++ "&token=" ++ config.Token

/-! ## Response types and the listener registry -/

/-- Go `type ResponseType string`. -/
abbrev ResponseType := String

/-- The wildcard subscription tag (`"*"`). -/
def WildcardResponse : ResponseType := "*"

/-- The `"ERROR"` message type. -/
def ErrorResponse : ResponseType := "ERROR"

/-- The `"INVALIDREQUEST"` message type. -/
def InvalidRequestResponse : ResponseType := "INVALIDREQUEST"

/-- The `"RECORD"` message type. -/
def RecordMessageResponse : ResponseType := "RECORD"

/-- The `"HEARTBEAT"` message type. -/
def HeartbeatResponse : ResponseType := "HEARTBEAT"

/-- The `"SUCCESS"` message type. -/
def SuccessResponse : ResponseType := "SUCCESS"

/-- The `"STATS"` message type. -/
def StatsResponse : ResponseType := "STATS"

/-- The `"END"` message type. -/
def EndResponse : ResponseType := "END"

/-- Metadata carried by a record payload (`MetaData` in ws.go). -/
structure MetaData where
  Timestamp : Int
  KeySize : Int
  ValueSize : Int
  Partition : Int
  Offset : Int
deriving DecidableEq, Repr

/-- Record payload (`Data` in ws.go); key and value are opaque encoded blobs. -/
structure Data where
  Key : String
  Value : String
  Metadata : MetaData
  RowNum : Int
deriving DecidableEq, Repr

/-- An inbound message (`LiveResponse` in ws.go): a type tag plus a payload. -/
structure LiveResponse where
  typ : ResponseType
  data : Data
deriving DecidableEq, Repr

/-- The listener registry `map[ResponseType][]LiveListener`, embedded as an
association list from tag to the ordered list of registered callbacks.
Callbacks are drawn from an abstract type `κ`. -/
abbrev Registry (κ : Type) := List (ResponseType × List κ)

/-- Go map lookup `listeners[typ]`: `some` when the key is present. -/
def lookupListeners {κ : Type} : Registry κ → ResponseType → Option (List κ)
  | [], _ => none
  | (k, v) :: rest, t => if k = t then some v else lookupListeners rest t

/-- Whether the registry map has an entry for a tag. -/
def hasTag {κ : Type} (m : Registry κ) (t : ResponseType) : Bool :=
  (lookupListeners m t).isSome

/-- Go `listeners[typ] = append(listeners[typ], cb)`: append to the entry,
creating it when missing. -/
def appendListener {κ : Type} : Registry κ → ResponseType → κ → Registry κ
  | [], t, cb => [(t, [cb])]
  | (k, v) :: rest, t, cb =>
    if k = t then (k, v ++ [cb]) :: rest
    else (k, v) :: appendListener rest t cb

/-- `On` for a concrete (non-wildcard) tag: lock, append, unlock. -/
def onConcrete {κ : Type} (m : Registry κ) (typ : ResponseType) (cb : κ) : Registry κ :=
  appendListener m typ cb

/-- The `On` method (ws.go lines 275-290): a wildcard registration is expanded
into `OnError`, `OnInvalidRequest`, `OnRecordMessage`, `OnHeartbeat`,
`OnSuccess`, `OnStats`, `OnEnd`, in this order; any other tag is appended
directly. -/
def onListener {κ : Type} (m : Registry κ) (typ : ResponseType) (cb : κ) : Registry κ :=
  if typ = WildcardResponse then
    let m := onConcrete m ErrorResponse cb
    let m := onConcrete m InvalidRequestResponse cb
    let m := onConcrete m RecordMessageResponse cb
    let m := onConcrete m HeartbeatResponse cb
    let m := onConcrete m SuccessResponse cb
    let m := onConcrete m StatsResponse cb
    onConcrete m EndResponse cb
  else
    onConcrete m typ cb

/-- Registries reachable in the program: the registry starts as the empty map
built by `OpenLiveConnection` and is only ever mutated through `On` (the
`OnError`, ..., `OnEnd` helpers all delegate to `On`). -/
inductive ReachableRegistry {κ : Type} : Registry κ → Prop
  | empty : ReachableRegistry []
  | onStep (m : Registry κ) (typ : ResponseType) (cb : κ) :
      ReachableRegistry m → ReachableRegistry (onListener m typ cb)

/-! ## The read loop -/

/-- Outcome of one `conn.ReadJSON` call, as the loop distinguishes them:
a `*net.OpError` transport fault, any other (decode) fault, or a decoded
message. Error values are modelled by their message strings. -/
inductive ReadResult
  | netOpErr (e : String)
  | decodeErr (e : String)
  | ok (r : LiveResponse)
deriving DecidableEq, Repr

/-- Observable events of the read loop: a fault pushed onto the `errors`
channel (`sendErr`), or the invocation of a callback on a message. -/
inductive LoopEvent (κ : Type)
  | errSent (e : String)
  | invoked (cb : κ) (r : LiveResponse)
deriving DecidableEq, Repr

/-- The dispatch stage of `readLoop` (ws.go lines 252-259) on the callback
list found for the message tag: each callback is invoked in order; when the
callback returns a fault the fault is sent to the error channel and dispatch
continues with the next callback. `run` gives the behaviour of a callback. -/
def dispatchMsg {κ : Type} (run : κ → LiveResponse → Option String)
    (cbs : List κ) (r : LiveResponse) : List (LoopEvent κ) :=
  match cbs with
  | [] => []
  | cb :: rest =>
    LoopEvent.invoked cb r ::
      (match run cb r with
        | some e => [LoopEvent.errSent e]
        | none => []) ++ dispatchMsg run rest r

/-- One iteration of `readLoop` (ws.go lines 233-259) on one read result:
a `*net.OpError` is forwarded as-is and the loop continues; any other read
fault is forwarded wrapped as `live: read json: [...]` and the loop
continues; a decoded message is dispatched to the callbacks registered for
its tag (none when the tag has no entry). -/
def readLoopStep {κ : Type} (run : κ → LiveResponse → Option String)
    (reg : Registry κ) : ReadResult → List (LoopEvent κ)
  | ReadResult.netOpErr e => [LoopEvent.errSent e]
  | ReadResult.decodeErr e => [LoopEvent.errSent ("live: read json: [" ++ e ++ "]")]
  | ReadResult.ok r =>
    match lookupListeners reg r.typ with
    | some cbs => dispatchMsg run cbs r
    | none => []

/-- The read loop run over a finite sequence of inbound read results, until
the termination signal (here: the end of the sequence) stops it: iterations
are strictly sequential, each fully processed before the next read. -/
def readLoopRun {κ : Type} (run : κ → LiveResponse → Option String)
    (reg : Registry κ) : List ReadResult → List (LoopEvent κ)
  | [] => []
  | inp :: rest => readLoopStep run reg inp ++ readLoopRun run reg rest

/-! ## Session lifecycle: `Close` -/

/-- The lifecycle-relevant state of a `LiveConnection`: the `closed` flag
(a `uint32`, values 0 or 1), whether `receiveStop` has been closed, whether
the websocket handle `conn` was ever set (it stays nil when the dial failed),
a release counter for `conn.Close()`, and the error the underlying transport
close would report. -/
structure Session where
  closed : Nat
  receiveStopClosed : Bool
  connSet : Bool
  connReleases : Nat
  connCloseErr : Option String
deriving DecidableEq, Repr

/-- What one `Close` call does, observably: return an error value, or crash
on a nil transport handle. -/
inductive CloseResult
  | ret (e : Option String)
  | nilDeref
deriving DecidableEq, Repr

/-- The `Close` method (ws.go lines 317-329), sequential semantics: when the
`closed` flag is already set, return nil at once; otherwise set the flag,
close `receiveStop`, and call `conn.Close()` — which dereferences nil when no
transport handle was ever set. -/
def closeOp (s : Session) : Session × CloseResult :=
  if s.closed > 0 then (s, CloseResult.ret none)
  else
    let s1 : Session :=
      { s with closed := 1, receiveStopClosed := true }
    if s.connSet then
      ({ s1 with connReleases := s1.connReleases + 1 }, CloseResult.ret s.connCloseErr)
    else (s1, CloseResult.nilDeref)

/-- `Close` called `n` times in sequence; collects the result of each call
in order. -/
def closeTimes : Nat → Session → Session × List CloseResult
  | 0, s => (s, [])
  | n + 1, s =>
    ((closeTimes n (closeOp s).1).1, (closeOp s).2 :: (closeTimes n (closeOp s).1).2)

/-! ## Two concurrent `Close` calls, at instruction granularity

`Close` is guarded by `atomic.LoadUint32` followed by a separate
`atomic.StoreUint32`; each primitive is atomic but the pair is not. The model
below splits one `Close` call into its atomic micro-steps and lets two
threads interleave. -/

/-- Program counter of one thread running `Close`. `unwound` is the state of
a goroutine whose `close(receiveStop)` panicked: the panic unwinds it, so it
never reaches `conn.Close()`. -/
inductive ClosePc
  | atLoad
  | atStore (loaded : Nat)
  | atChanClose
  | atConnClose
  | done (released : Bool)
  | unwound
deriving DecidableEq, Repr

/-- Shared state plus the two thread-local program counters. -/
structure RaceState where
  closed : Nat
  receiveStopClosed : Bool
  connReleases : Nat
  panicked : Bool
  pc1 : ClosePc
  pc2 : ClosePc
deriving DecidableEq, Repr

/-- One micro-step of `Close` from a program counter, acting on the shared
cells: atomic load of `closed`; the guard test and, when it fails, the atomic
store of 1; `close(receiveStop)` — when the channel is already closed this
panics and the panic unwinds the goroutine, so it never reaches
`conn.Close()`; otherwise `conn.Close()` follows. Returns the new shared
state and program counter. -/
def closeMicroStep (sh : RaceState) (pc : ClosePc) : RaceState × ClosePc :=
  match pc with
  | ClosePc.atLoad => (sh, ClosePc.atStore sh.closed)
  | ClosePc.atStore loaded =>
    if loaded > 0 then (sh, ClosePc.done false)
    else ({ sh with closed := 1 }, ClosePc.atChanClose)
  | ClosePc.atChanClose =>
    if sh.receiveStopClosed then ({ sh with panicked := true }, ClosePc.unwound)
    else ({ sh with receiveStopClosed := true }, ClosePc.atConnClose)
  | ClosePc.atConnClose => ({ sh with connReleases := sh.connReleases + 1 }, ClosePc.done true)
  | ClosePc.done b => (sh, ClosePc.done b)
  | ClosePc.unwound => (sh, ClosePc.unwound)

/-- Run a schedule: `false` steps thread 1, `true` steps thread 2. -/
def raceRun : List Bool → RaceState → RaceState
  | [], st => st
  | b :: rest, st =>
    if b then
      let (sh, pc) := closeMicroStep st st.pc2
      raceRun rest { sh with pc2 := pc }
    else
      let (sh, pc) := closeMicroStep st st.pc1
      raceRun rest { sh with pc1 := pc }

/-- Initial state: session open, both threads about to run `Close`. -/
def raceInit : RaceState :=
  { closed := 0, receiveStopClosed := false, connReleases := 0, panicked := false,
    pc1 := ClosePc.atLoad, pc2 := ClosePc.atLoad }

/-! ## Session creation: `OpenLiveConnection` and `start` -/

/-- Result of `start` (ws.go lines 178-199): the error returned and whether
the read loop goroutine was started and the transport handle set. The dial
outcome is a parameter (`Except.error e` = handshake failure). -/
structure StartOutcome where
  err : Option String
  readLoopStarted : Bool
  connSet : Bool
deriving DecidableEq, Repr

/-- The `start` method: on dial failure return the fault
`connect failure for [<host>]: <err>` without starting the read loop; on
success set the connection and start the read loop. `host` is the (already
rewritten) `config.Host`. -/
def startConn (host : String) (dialResult : Except String Unit) : StartOutcome :=
  match dialResult with
  | Except.error e =>
    { err := some ("connect failure for [" ++ host ++ "]: " ++ e),
      readLoopStarted := false, connSet := false }
  | Except.ok _ =>
    { err := none, readLoopStarted := true, connSet := true }

/-- `OpenLiveConnection` (ws.go lines 167-176) returns `c, c.start()`:
the connection value is returned whether or not `start` failed, so the
caller gets `some` session together with the error. The session's transport
handle reflects the `start` outcome and its `closed` flag starts at 0. -/
def openLiveConnection (config : LiveConfiguration)
    (dialResult : Except String Unit) : Option Session × Option String :=
  let st := startConn (stringsReplaceOne
      (stringsReplaceOne config.Host "https://" "wss://") "https://" "ws://") dialResult
  (some { closed := 0, receiveStopClosed := false, connSet := st.connSet,
          connReleases := 0, connCloseErr := none }, st.err)

/-! ## The quota delete CLI commands -/

/-- The remote delete operation a quota delete command invokes. -/
inductive QuotaApiCall
  | deleteForUserAllClients (user : String) (args : List String)
  | deleteForUserClient (user client : String) (args : List String)
  | deleteForUser (user : String) (args : List String)
  | deleteForAllUsers (args : List String)
  | deleteForClient (client : String) (args : List String)
  | deleteForAllClients (args : List String)
deriving DecidableEq, Repr

/-- Success path of `quota users delete` (quota_command.go lines 130-181):
`actionMsg` is `"update"` when positional arguments are present, else
`"delete"`; the branch on the user and client flags picks the remote call
and the message printed on success. -/
def quotaUsersDeleteRun (user clientID : String) (args : List String) :
    QuotaApiCall × String :=
  let actionMsg := if args.length > 0 then "update" else "delete"
  if user ≠ "" then
    if clientID ≠ "" then
      if clientID = "all" ∨ clientID = "*" then
        (QuotaApiCall.deleteForUserAllClients user args,
          "Quota for user " ++ user ++ " deleted for all clients")
      else
        (QuotaApiCall.deleteForUserClient user clientID args,
          "Quota for user " ++ user ++ " deleted for client " ++ clientID)
    else
      (QuotaApiCall.deleteForUser user args,
        "Quota for user " ++ user ++ " " ++ actionMsg ++ "d")
  else
    (QuotaApiCall.deleteForAllUsers args,
      "Default user quota " ++ actionMsg ++ "d")

/-- Success path of `quota clients delete` (quota_command.go lines 243-274). -/
def quotaClientsDeleteRun (clientID : String) (args : List String) :
    QuotaApiCall × String :=
  let actionMsg := if args.length > 0 then "update" else "delete"
  if clientID ≠ "" ∧ clientID ≠ "all" ∧ clientID ≠ "*" then
    (QuotaApiCall.deleteForClient clientID args,
      "Quota for client " ++ clientID ++ " " ++ actionMsg ++ "d")
  else
    (QuotaApiCall.deleteForAllClients args,
      "Default client quota " ++ actionMsg ++ "d")

/-! ## Helper lemmas -/

theorem isPrefixOf_append_self (l r : List Char) : l.isPrefixOf (l ++ r) = true := by
  induction l with
  | nil => simp [List.isPrefixOf]
  | cons a as ih => simp [List.isPrefixOf, ih]

theorem replaceFirst_append_self (pat rep r : List Char) :
    replaceFirst pat rep (pat ++ r) = rep ++ r := by
  cases pat with
  | nil =>
    cases r with
    | nil => simp [replaceFirst, List.isPrefixOf]
    | cons c l => simp [replaceFirst, List.isPrefixOf]
  | cons p pt =>
    have h : (p :: pt).isPrefixOf ((p :: pt) ++ r) = true := isPrefixOf_append_self _ _
    simp only [List.cons_append] at h ⊢
    simp [replaceFirst, h]

theorem replaceFirst_cons_ne (p : Char) (pt rep : List Char) (c : Char) (l : List Char)
    (h : (p == c) = false) :
    replaceFirst (p :: pt) rep (c :: l) = c :: replaceFirst (p :: pt) rep l := by
  simp [replaceFirst, List.isPrefixOf, h]

theorem replaceFirst_https_on_wss (rep r : List Char) :
    replaceFirst "https://".data rep ("wss://".data ++ r) =
      "wss://".data ++ replaceFirst "https://".data rep r := by
  have e : "https://".data = 'h' :: "ttps://".data := rfl
  show replaceFirst "https://".data rep ('w' :: 's' :: 's' :: ':' :: '/' :: '/' :: r) =
      'w' :: 's' :: 's' :: ':' :: '/' :: '/' :: replaceFirst "https://".data rep r
  rw [e]
  rw [ replaceFirst_cons_ne 'h' _ rep 'w' _ (by decide)]
  rw [ replaceFirst_cons_ne 'h' _ rep 's' _ (by decide)]
  rw [ replaceFirst_cons_ne 'h' _ rep 's' _ (by decide)]
  rw [ replaceFirst_cons_ne 'h' _ rep ':' _ (by decide)]
  rw [ replaceFirst_cons_ne 'h' _ rep '/' _ (by decide)]
  rw [ replaceFirst_cons_ne 'h' _ rep '/' _ (by decide)]

theorem exists_data_append (x : String) (l : List Char) (y : String)
    (h : ∃ t, x.data = l ++ t) : ∃ t, (x ++ y).data = l ++ t := by
  obtain ⟨t, ht⟩ := h
  exact ⟨t ++ y.data, by rw [String.data_append, ht, List.append_assoc]⟩

theorem data_of_buildEndpoint (config : LiveConfiguration) :
    ∃ tail : List Char,
      (buildEndpoint config).data =
        (stringsReplaceOne (stringsReplaceOne config.Host "https://" "wss://")
          "https://" "ws://").data ++ tail := by
  unfold buildEndpoint
  split
  · exact exists_data_append _ _ _ (exists_data_append _ _ _ (exists_data_append _ _ _
      (exists_data_append _ _ _ (exists_data_append _ _ _
        ⟨[], (List.append_nil _).symm⟩))))
  · exact exists_data_append _ _ _ (exists_data_append _ _ _ (exists_data_append _ _ _
      (exists_data_append _ _ _ ⟨[], (List.append_nil _).symm⟩)))

theorem buildEndpoint_data_keeps_wss (config : LiveConfiguration) (rest : String)
    (hh : config.Host = "https://" ++ rest) :
    "wss://".data.isPrefixOf (buildEndpoint config).data = true := by
  obtain ⟨tail, ht⟩ := data_of_buildEndpoint config
  have hs : ∀ (s old new : String),
      (stringsReplaceOne s old new).data = replaceFirst old.data new.data s.data :=
    fun _ _ _ => rfl
  have h1 : (stringsReplaceOne config.Host "https://" "wss://").data =
      "wss://".data ++ rest.data := by
    rw [hs, hh, String.data_append, replaceFirst_append_self]
  have h2 : (stringsReplaceOne (stringsReplaceOne config.Host "https://" "wss://")
      "https://" "ws://").data =
      "wss://".data ++ replaceFirst "https://".data "ws://".data rest.data := by
    rw [hs, h1, replaceFirst_https_on_wss]
  rw [ht, h2, List.append_assoc]
  exact isPrefixOf_append_self _ _

theorem lookupListeners_appendListener_same {κ : Type} (m : Registry κ)
    (t : ResponseType) (cb : κ) :
    lookupListeners (appendListener m t cb) t =
      some ((lookupListeners m t).getD [] ++ [cb]) := by
  induction m with
  | nil => simp [appendListener, lookupListeners]
  | cons kv rest ih =>
    obtain ⟨k, v⟩ := kv
    by_cases h : k = t
    · subst h; simp [appendListener, lookupListeners]
    · simp [appendListener, lookupListeners, h, ih]

theorem lookupListeners_appendListener_ne {κ : Type} (m : Registry κ)
    (t t2 : ResponseType) (cb : κ) (h : t ≠ t2) :
    lookupListeners (appendListener m t cb) t2 = lookupListeners m t2 := by
  induction m with
  | nil => simp [appendListener, lookupListeners, h]
  | cons kv rest ih =>
    obtain ⟨k, v⟩ := kv
    by_cases hk : k = t
    · subst hk; simp [appendListener, lookupListeners, h]
    · simp [appendListener, lookupListeners, hk, ih]

theorem hasTag_appendListener_ne {κ : Type} (m : Registry κ)
    (t t2 : ResponseType) (cb : κ) (h : t ≠ t2) :
    hasTag (appendListener m t cb) t2 = hasTag m t2 := by
  simp [hasTag, lookupListeners_appendListener_ne m t t2 cb h]

theorem onListener_wildcard {κ : Type} (m : Registry κ) (cb : κ) :
    onListener m WildcardResponse cb =
      appendListener (appendListener (appendListener (appendListener (appendListener
        (appendListener (appendListener m ErrorResponse cb) InvalidRequestResponse cb)
        RecordMessageResponse cb) HeartbeatResponse cb) SuccessResponse cb)
        StatsResponse cb) EndResponse cb := by
  simp [onListener, onConcrete]

theorem onListener_concrete {κ : Type} (m : Registry κ) (typ : ResponseType) (cb : κ)
    (h : typ ≠ WildcardResponse) :
    onListener m typ cb = appendListener m typ cb := by
  simp [onListener, onConcrete, h]

theorem reachable_no_wildcard {κ : Type} (m : Registry κ)
    (h : ReachableRegistry m) : hasTag m WildcardResponse = false := by
  induction h with
  | empty => simp [hasTag, lookupListeners]
  | onStep m typ cb hm ih =>
    by_cases ht : typ = WildcardResponse
    · subst ht
      rw [onListener_wildcard]
      rw [ hasTag_appendListener_ne _ EndResponse WildcardResponse cb (by decide)]
      rw [ hasTag_appendListener_ne _ StatsResponse WildcardResponse cb (by decide)]
      rw [ hasTag_appendListener_ne _ SuccessResponse WildcardResponse cb (by decide)]
      rw [ hasTag_appendListener_ne _ HeartbeatResponse WildcardResponse cb (by decide)]
      rw [ hasTag_appendListener_ne _ RecordMessageResponse WildcardResponse cb (by decide)]
      rw [ hasTag_appendListener_ne _ InvalidRequestResponse WildcardResponse cb (by decide)]
      rw [ hasTag_appendListener_ne _ ErrorResponse WildcardResponse cb (by decide)]
      exact ih
    · rw [onListener_concrete m typ cb ht]
      rw [ hasTag_appendListener_ne _ typ WildcardResponse cb ht]
      exact ih

theorem closeOp_of_closed (s : Session) (h : s.closed > 0) :
    closeOp s = (s, CloseResult.ret none) := by
  simp [closeOp, h]

theorem closeTimes_of_closed (n : Nat) (s : Session) (h : s.closed > 0) :
    closeTimes n s = (s, List.replicate n (CloseResult.ret none)) := by
  induction n with
  | zero => simp [closeTimes]
  | succ k ih => simp [closeTimes, closeOp_of_closed s h, ih, List.replicate_succ]

theorem closeOp_of_open (s : Session) (h0 : s.closed = 0) (hc : s.connSet = true) :
    closeOp s =
      ({ s with closed := 1, receiveStopClosed := true, connReleases := s.connReleases + 1 },
        CloseResult.ret s.connCloseErr) := by
  simp [closeOp, h0, hc]

theorem dispatchMsg_append {κ : Type} (run : κ → LiveResponse → Option String)
    (a b : List κ) (r : LiveResponse) :
    dispatchMsg run (a ++ b) r = dispatchMsg run a r ++ dispatchMsg run b r := by
  induction a with
  | nil => simp [dispatchMsg]
  | cons cb rest ih => cases hr : run cb r <;> simp [dispatchMsg, hr, ih]

/-- Projection keeping only the callback-invocation events of a loop trace. -/
def invokedOf {κ : Type} : LoopEvent κ → Option (κ × LiveResponse)
  | LoopEvent.invoked cb r => some (cb, r)
  | LoopEvent.errSent _ => none

theorem invoked_mem_dispatchMsg {κ : Type} (run : κ → LiveResponse → Option String)
    (cbs : List κ) (r : LiveResponse) (cb : κ) (h : cb ∈ cbs) :
    LoopEvent.invoked cb r ∈ dispatchMsg run cbs r := by
  induction cbs with
  | nil => cases h
  | cons c rest ih =>
    rcases List.mem_cons.1 h with rfl | h2
    · cases hr : run cb r <;> simp [dispatchMsg, hr]
    · cases hr : run c r <;> simp [dispatchMsg, hr, ih h2]

theorem dispatchMsg_invoked {κ : Type} (run : κ → LiveResponse → Option String)
    (cbs : List κ) (r : LiveResponse) :
    (dispatchMsg run cbs r).filterMap invokedOf = cbs.map (fun cb => (cb, r)) := by
  induction cbs with
  | nil => simp [dispatchMsg]
  | cons cb rest ih =>
    cases hr : run cb r <;> simp [dispatchMsg, hr, invokedOf, ih]

/-! ## Claim theorems -/

/-- C1, counterexample: for host `https://example.com`, SQL `SELECT * FROM t`,
token `abc` and live mode, the built endpoint is NOT the claimed string with
`%20`-escaped spaces — Go `url.QueryEscape` encodes a space as `+`. -/
theorem C1_spec_endpoint_string_fails :
    buildEndpoint ⟨"https://example.com", "abc", "SELECT * FROM t", true⟩ ≠
      "wss://example.com/api/ws/v1/sql/execute?sql=SELECT%20%2A%20FROM%20t&token=abc&live=true" := by
  decide

/-- C1 (amended): for that configuration the built endpoint is
`wss://example.com/api/ws/v1/sql/execute?sql=SELECT+%2A+FROM+t&token=abc&live=true`
(spaces query-escaped as `+`), and for every host beginning with the
`https://` prefix the built endpoint begins with `wss://`. -/
theorem C1_endpoint :
    buildEndpoint ⟨"https://example.com", "abc", "SELECT * FROM t", true⟩ =
      "wss://example.com/api/ws/v1/sql/execute?sql=SELECT+%2A+FROM+t&token=abc&live=true" ∧
    ∀ (config : LiveConfiguration) (rest : String),
      config.Host = "https://" ++ rest →
      "wss://".data.isPrefixOf (buildEndpoint config).data = true := by
  exact ⟨by decide, fun config rest hh => buildEndpoint_data_keeps_wss config rest hh⟩

theorem C1_endpoint_witness :
    "wss://".data.isPrefixOf
      (buildEndpoint ⟨"https://example.com", "abc", "SELECT * FROM t", true⟩).data = true :=
  C1_endpoint.2 ⟨"https://example.com", "abc", "SELECT * FROM t", true⟩ "example.com" (by decide)

/-- C2: registering a callback under the Wildcard tag appends it under each of
the seven concrete tags individually, and (since the registry starts empty and
is only mutated through `On`) the registry never holds a Wildcard entry. -/
theorem C2_wildcard_registration (κ : Type) (m : Registry κ) (cb : κ) :
    lookupListeners (onListener m WildcardResponse cb) ErrorResponse =
      some ((lookupListeners m ErrorResponse).getD [] ++ [cb]) ∧
    lookupListeners (onListener m WildcardResponse cb) InvalidRequestResponse =
      some ((lookupListeners m InvalidRequestResponse).getD [] ++ [cb]) ∧
    lookupListeners (onListener m WildcardResponse cb) RecordMessageResponse =
      some ((lookupListeners m RecordMessageResponse).getD [] ++ [cb]) ∧
    lookupListeners (onListener m WildcardResponse cb) HeartbeatResponse =
      some ((lookupListeners m HeartbeatResponse).getD [] ++ [cb]) ∧
    lookupListeners (onListener m WildcardResponse cb) SuccessResponse =
      some ((lookupListeners m SuccessResponse).getD [] ++ [cb]) ∧
    lookupListeners (onListener m WildcardResponse cb) StatsResponse =
      some ((lookupListeners m StatsResponse).getD [] ++ [cb]) ∧
    lookupListeners (onListener m WildcardResponse cb) EndResponse =
      some ((lookupListeners m EndResponse).getD [] ++ [cb]) ∧
    (ReachableRegistry m →
      hasTag (onListener m WildcardResponse cb) WildcardResponse = false) := by
  refine ⟨?_, ?_, ?_, ?_, ?_, ?_, ?_, ?_⟩
  · simp +decide [onListener_wildcard, lookupListeners_appendListener_ne,
      lookupListeners_appendListener_same]
  · simp +decide [onListener_wildcard, lookupListeners_appendListener_ne,
      lookupListeners_appendListener_same]
  · simp +decide [onListener_wildcard, lookupListeners_appendListener_ne,
      lookupListeners_appendListener_same]
  · simp +decide [onListener_wildcard, lookupListeners_appendListener_ne,
      lookupListeners_appendListener_same]
  · simp +decide [onListener_wildcard, lookupListeners_appendListener_ne,
      lookupListeners_appendListener_same]
  · simp +decide [onListener_wildcard, lookupListeners_appendListener_ne,
      lookupListeners_appendListener_same]
  · simp +decide [onListener_wildcard, lookupListeners_appendListener_ne,
      lookupListeners_appendListener_same]
  · intro h
    exact reachable_no_wildcard _ (ReachableRegistry.onStep m WildcardResponse cb h)

theorem C2_wildcard_registration_witness :
    lookupListeners (onListener ([] : Registry Nat) WildcardResponse 7) HeartbeatResponse =
      some [7] ∧
    hasTag (onListener ([] : Registry Nat) WildcardResponse 7) WildcardResponse = false :=
  ⟨(C2_wildcard_registration Nat [] 7).2.2.2.1,
    (C2_wildcard_registration Nat [] 7).2.2.2.2.2.2.2 ReachableRegistry.empty⟩

/-- C3: on an open session with a transport handle, calling `Close` `N > 1`
times in sequence returns `nil` on calls 2 through `N`, and the underlying
transport release runs exactly once, already on the first call. -/
theorem C3_close_idempotent (s : Session) (N : Nat)
    (h0 : s.closed = 0) (hc : s.connSet = true) (hN : 1 < N) :
    (closeTimes N s).2.drop 1 = List.replicate (N - 1) (CloseResult.ret none) ∧
    (closeOp s).1.connReleases = s.connReleases + 1 ∧
    (closeTimes N s).1.connReleases = s.connReleases + 1 := by
  obtain ⟨m, rfl⟩ : ∃ m, N = m + 2 := ⟨N - 2, by omega⟩
  have hop := closeOp_of_open s h0 hc
  have h1 : ({ s with closed := 1, receiveStopClosed := true, connReleases := s.connReleases + 1 } : Session).closed > 0 :=
    Nat.one_pos
  have hrest := closeTimes_of_closed (m + 1) _ h1
  have hct : closeTimes (m + 2) s =
      ({ s with closed := 1, receiveStopClosed := true, connReleases := s.connReleases + 1 },
        CloseResult.ret s.connCloseErr :: List.replicate (m + 1) (CloseResult.ret none)) := by
    show ((closeTimes (m + 1) (closeOp s).1).1,
        (closeOp s).2 :: (closeTimes (m + 1) (closeOp s).1).2) = _
    rw [hop, hrest]
  exact ⟨by rw [hct]; rfl, by rw [hop], by rw [hct]⟩

theorem C3_close_idempotent_witness :
    (closeTimes 3 ⟨0, false, true, 0, none⟩).2.drop 1 =
      List.replicate (3 - 1) (CloseResult.ret none) ∧
    (closeOp ⟨0, false, true, 0, none⟩).1.connReleases = 0 + 1 ∧
    (closeTimes 3 ⟨0, false, true, 0, none⟩).1.connReleases = 0 + 1 :=
  C3_close_idempotent ⟨0, false, true, 0, none⟩ 3 rfl rfl (by decide)

/-- C4: the closed flag is monotonic under the sequential `Close` operation,
but the load-then-store guard is not a single-writer-wins primitive: under the
interleaving where both `Close` callers pass the `atomic.LoadUint32` guard
before either stores 1, both enter the release sequence concurrently — after
four steps both threads stand at `close(receiveStop)`; running on, the second
`close(receiveStop)` panics and unwinds its goroutine, so the run ends
panicked with the transport released once by the first caller. -/
theorem C4_close_race :
    (raceRun [false, true, false, true] raceInit).pc1 = ClosePc.atChanClose ∧
    (raceRun [false, true, false, true] raceInit).pc2 = ClosePc.atChanClose ∧
    raceRun [false, true, false, true, false, true, false, true] raceInit =
      { closed := 1, receiveStopClosed := true, connReleases := 1, panicked := true,
        pc1 := ClosePc.done true, pc2 := ClosePc.unwound } ∧
    ∀ s : Session, s.closed ≤ (closeOp s).1.closed := by
  refine ⟨by decide, by decide, by decide, ?_⟩
  intro s
  by_cases h0 : s.closed > 0
  · rw [closeOp_of_closed s h0]
  · have h0 : s.closed = 0 := by omega
    by_cases hc : s.connSet
    · rw [closeOp_of_open s h0 hc]
      simp [h0]
    · simp [closeOp, h0, hc]

/-- Concrete heartbeat message used by the dispatch witnesses. -/
def sampleMsg : LiveResponse := ⟨HeartbeatResponse, ⟨"", "", ⟨0, 0, 0, 0, 0⟩, 0⟩⟩

/-- Concrete callback behaviour: callback 1 faults with "boom". -/
def sampleRun : Nat → LiveResponse → Option String :=
  fun cb _ => if cb = 1 then some "boom" else none

/-- Concrete registry: three callbacks under the heartbeat tag. -/
def sampleReg : Registry Nat := [(HeartbeatResponse, [0, 1, 2])]

/-- C5: when a subscriber faults, the fault is sent to the error channel right
after its invocation, every remaining subscriber in the list is still invoked
in order, and the loop goes on to the next inbound message. -/
theorem C5_subscriber_fault {κ : Type} (run : κ → LiveResponse → Option String)
    (pre post : List κ) (cb : κ) (r : LiveResponse) (e : String)
    (reg : Registry κ) (rest : List ReadResult)
    (hf : run cb r = some e)
    (hreg : lookupListeners reg r.typ = some (pre ++ cb :: post)) :
    dispatchMsg run (pre ++ cb :: post) r =
      dispatchMsg run pre r ++
        LoopEvent.invoked cb r :: LoopEvent.errSent e :: dispatchMsg run post r ∧
    readLoopRun run reg (ReadResult.ok r :: rest) =
      dispatchMsg run (pre ++ cb :: post) r ++ readLoopRun run reg rest ∧
    ∀ cb2, cb2 ∈ pre ++ cb :: post →
      LoopEvent.invoked cb2 r ∈ dispatchMsg run (pre ++ cb :: post) r := by
  refine ⟨?_, ?_, ?_⟩
  · rw [ dispatchMsg_append]
    simp [dispatchMsg, hf]
  · simp [readLoopRun, readLoopStep, hreg]
  · exact fun cb2 h2 => invoked_mem_dispatchMsg run _ r cb2 h2

theorem C5_subscriber_fault_witness :
    dispatchMsg sampleRun [0, 1, 2] sampleMsg =
      dispatchMsg sampleRun [0] sampleMsg ++
        LoopEvent.invoked 1 sampleMsg ::
          LoopEvent.errSent "boom" :: dispatchMsg sampleRun [2] sampleMsg ∧
    readLoopRun sampleRun sampleReg [ReadResult.ok sampleMsg, ReadResult.ok sampleMsg] =
      dispatchMsg sampleRun [0, 1, 2] sampleMsg ++
        readLoopRun sampleRun sampleReg [ReadResult.ok sampleMsg] ∧
    LoopEvent.invoked 2 sampleMsg ∈ dispatchMsg sampleRun [0, 1, 2] sampleMsg :=
  ⟨(C5_subscriber_fault sampleRun [0] [2] 1 sampleMsg "boom" sampleReg
      [ReadResult.ok sampleMsg] rfl (by decide)).1,
    (C5_subscriber_fault sampleRun [0] [2] 1 sampleMsg "boom" sampleReg
      [ReadResult.ok sampleMsg] rfl (by decide)).2.1,
    (C5_subscriber_fault sampleRun [0] [2] 1 sampleMsg "boom" sampleReg
      [ReadResult.ok sampleMsg] rfl (by decide)).2.2 2 (by decide)⟩

/-- C6: a failed read forwards exactly one fault — a transport-level
(`*net.OpError`) fault as-is, any other decode fault wrapped as
`live: read json: [...]` — and the loop continues with the following reads,
so a decode fault followed by a well-formed frame yields the single fault
followed by that frame's normal dispatch. -/
theorem C6_read_fault_continue {κ : Type} (run : κ → LiveResponse → Option String)
    (reg : Registry κ) (e : String) (r : LiveResponse) (rest : List ReadResult) :
    readLoopRun run reg (ReadResult.netOpErr e :: rest) =
      LoopEvent.errSent e :: readLoopRun run reg rest ∧
    readLoopRun run reg (ReadResult.decodeErr e :: rest) =
      LoopEvent.errSent ("live: read json: [" ++ e ++ "]") :: readLoopRun run reg rest ∧
    readLoopRun run reg (ReadResult.decodeErr e :: ReadResult.ok r :: rest) =
      LoopEvent.errSent ("live: read json: [" ++ e ++ "]") ::
        (readLoopStep run reg (ReadResult.ok r) ++ readLoopRun run reg rest) :=
  ⟨rfl, rfl, rfl⟩

/-- C7: when the upgrade handshake fails, `start` returns a fault that wraps
the transport error together with the target host, and the read loop is not
started. -/
theorem C7_connect_fault (host e : String) :
    (startConn host (Except.error e)).err =
      some ("connect failure for [" ++ host ++ "]: " ++ e) ∧
    (startConn host (Except.error e)).readLoopStarted = false :=
  ⟨rfl, rfl⟩

/-- C8: messages are dispatched in strict arrival order — the invocation trace
of the read loop over any frame sequence is the concatenation, frame by frame,
of the subscribers registered for each frame's tag, in registration order. -/
theorem C8_arrival_order {κ : Type} (run : κ → LiveResponse → Option String)
    (reg : Registry κ) (msgs : List LiveResponse) :
    (readLoopRun run reg (msgs.map ReadResult.ok)).filterMap invokedOf =
      msgs.flatMap
        (fun r => ((lookupListeners reg r.typ).getD []).map (fun cb => (cb, r))) := by
  induction msgs with
  | nil => simp [readLoopRun]
  | cons r rest ih =>
    simp only [List.map_cons, readLoopRun, List.filterMap_append, ih, List.flatMap_cons]
    cases hl : lookupListeners reg r.typ <;>
      simp [readLoopStep, hl, dispatchMsg_invoked]

/-- C9: evaluation of the quota delete commands with one positional argument
(`producer_byte_rate`): the user+client and user+all-clients targets still
report "deleted", while the other four targets report "updated" — the code
contradicts its own comment that with arguments it should show "update(d)". -/
theorem C9_delete_report :
    (quotaUsersDeleteRun "bob" "client-1" ["producer_byte_rate"]).2 =
      "Quota for user bob deleted for client client-1" ∧
    (quotaUsersDeleteRun "bob" "all" ["producer_byte_rate"]).2 =
      "Quota for user bob deleted for all clients" ∧
    (quotaUsersDeleteRun "bob" "" ["producer_byte_rate"]).2 =
      "Quota for user bob updated" ∧
    (quotaUsersDeleteRun "" "" ["producer_byte_rate"]).2 =
      "Default user quota updated" ∧
    (quotaClientsDeleteRun "client-1" ["producer_byte_rate"]).2 =
      "Quota for client client-1 updated" ∧
    (quotaClientsDeleteRun "" ["producer_byte_rate"]).2 =
      "Default client quota updated" ∧
    (quotaUsersDeleteRun "bob" "client-1" []).2 =
      "Quota for user bob deleted for client client-1" := by
  decide

/-- C10: when the dial fails, `OpenLiveConnection` still returns a session
value (not a nil connection) together with the error; that session carries no
transport handle, and calling `Close` on it dereferences a nil transport. -/
theorem C10_open_failure (config : LiveConfiguration) (e : String) :
    (openLiveConnection config (Except.error e)).1 =
      some ⟨0, false, false, 0, none⟩ ∧
    (openLiveConnection config (Except.error e)).2.isSome = true ∧
    (closeOp ⟨0, false, false, 0, none⟩).2 = CloseResult.nilDeref :=
  ⟨rfl, rfl, rfl⟩

end LensesGo
